import Mathlib

/-!
Shallow embedding of `milvus_rag.py` (MilvusRAGManager), a CLI document
manager for a Milvus vector database.

The Milvus server is modelled as the state of the single collection named by
the configuration (`DBState`): a flag for whether the collection exists, the
list of its index entries, and a counter handing out fresh primary keys (the
store assigns opaque unique ids on insert).  The manager object's in-memory
fields `self.collection` and `self.vector_db` are modelled as Booleans
recording whether the handle is currently set (`None` vs. bound).

File loading and chunking (PyPDFLoader / PyPDFDirectoryLoader +
RecursiveCharacterTextSplitter) are external collaborators; they are modelled
by a `FileSystem` oracle giving, for each path, whether it is a file, whether
it is a directory, and the chunk list the loader+splitter pipeline produces
for it.  Each operation additionally returns a trace of the externally
visible database/loader calls it makes (`Event`), so that ordering claims
(check -> delete -> insert, drop before insert) are statable.
-/

namespace MilvusRag

/-- Chunk produced by the chunking pipeline: text, provenance source path,
and start offset (`add_start_index=True`). -/
structure Chunk where
  text : String
  source : String
  startIndex : Nat
deriving DecidableEq, Repr

/-- Entry stored in the Milvus collection: store-assigned primary key plus
the chunk payload. -/
structure IndexEntry where
  pk : Nat
  text : String
  source : String
  startIndex : Nat
deriving DecidableEq, Repr

/-- State of the configured collection on the Milvus server. -/
structure DBState where
  collectionExists : Bool
  entries : List IndexEntry
  nextPk : Nat
deriving DecidableEq, Repr

/-- Manager-process state: the server-side collection state plus whether the
in-memory handles `self.collection` and `self.vector_db` are bound. -/
structure ManagerState where
  db : DBState
  collection : Bool
  vectorDb : Bool
deriving DecidableEq, Repr

/-- Oracle for the file system together with the loader+splitter pipeline:
`chunksOf p` is the chunk list `self.text_splitter.split_documents(loader.load())`
produces for path `p` (file or directory). -/
structure FileSystem where
  isFile : String → Bool
  isDir : String → Bool
  chunksOf : String → List Chunk

/-- Parsed JSON configuration; `none` marks an absent key. -/
structure ConfigJson where
  docker_host : Option String
  docker_port : Option Nat
  collection_name : Option String
  embedding_model : Option String
  chunk_size : Option Nat
  chunk_overlap : Option Nat
  file_type : Option String
deriving DecidableEq, Repr

/-- Errors raised by `_load_documents` / propagated by insert paths:
`FileNotFoundError` and `ValueError("Unsupported file type ...")`. -/
inductive LoadError where
  | notFound
  | unsupportedType
deriving DecidableEq, Repr

/-- Errors surfaced while constructing `MilvusRAGManager`:
missing config file, invalid JSON, or a `KeyError` on a required key. -/
inductive ConfigError where
  | fileNotFound
  | invalidJson
  | missingKey (key : String)
deriving DecidableEq, Repr

/-- Externally visible calls an operation makes, in order. -/
inductive Event where
  | querySource (fp : String)
  | deletePk (pk : Nat)
  | loadDocs (fp : String)
  | insertDocs (fp : String) (n : Nat)
  | dropColl
  | dropNoop
deriving DecidableEq, Repr

/-- Result of the provenance query `source == fp` (lines 152-155, 185-188). -/
def filterSource (entries : List IndexEntry) (fp : String) : List IndexEntry :=
  entries.filter (fun e => e.source == fp)

/-- Number of index entries whose source equals `fp`. -/
def countSource (entries : List IndexEntry) (fp : String) : Nat :=
  (filterSource entries fp).length

/-- Well-formedness of the store: primary keys are store-assigned unique ids,
so no two entries share a pk, and a collection that does not exist holds no
entries. -/
def WF (db : DBState) : Prop :=
  (db.entries.map (fun e => e.pk)).Nodup ∧
    (db.collectionExists = false → db.entries = [])

instance (db : DBState) : Decidable (WF db) := by
  unfold WF; infer_instance

/-- Model of `_load_config` (lines 34-42).  The input models the outcome of
reading the config file: `none` = file absent (`FileNotFoundError`),
`some none` = unparseable JSON (`json.JSONDecodeError`, re-raised as
`ValueError`), `some (some j)` = parsed contents. -/
def load_config (file : Option (Option ConfigJson)) : Except ConfigError ConfigJson :=
  match file with
  | none => .error .fileNotFound
  | some none => .error .invalidJson
  | some (some j) => .ok j

/-- Components materialised by `_setup_components` (lines 44-71): the chosen
embedding model, the text-splitter parameters, and the Milvus endpoint. -/
structure Components where
  embeddingModel : String
  chunkSize : Nat
  chunkOverlap : Nat
  host : String
  port : Nat
deriving DecidableEq, Repr

/-- Model of `_setup_components` followed by `_connect_milvus` (lines 44-71):
applies the defaults `embedding_model = 'all-mpnet-base-v2'`,
`chunk_size = 500`, `chunk_overlap = 20`, then reads `docker_host` and
`docker_port` with bare indexing — a missing one raises `KeyError`. -/
def setup_components (cfg : ConfigJson) : Except ConfigError Components :=
  let model := cfg.embedding_model.getD "all-mpnet-base-v2"
  let cs := cfg.chunk_size.getD 500
  let co := cfg.chunk_overlap.getD 20
  match cfg.docker_host with
  | none => .error (.missingKey "docker_host")
  | some h =>
    match cfg.docker_port with
    | none => .error (.missingKey "docker_port")
    | some p => .ok ⟨model, cs, co, h, p⟩

/-- Model of `MilvusRAGManager.__init__` (lines 25-32): `_load_config` then
`_setup_components` (which ends by connecting to Milvus). -/
def managerInit (file : Option (Option ConfigJson)) :
    Except ConfigError (ConfigJson × Components) :=
  match load_config file with
  | .error e => .error e
  | .ok cfg =>
    match setup_components cfg with
    | .error e => .error e
    | .ok comps => .ok (cfg, comps)

/-- Model of Python `str.lower` on a character, as applied to the configured
file type: ASCII uppercase letters map to their lowercase counterparts. -/
def lowerChar (c : Char) : Char :=
  if c.isUpper then Char.ofNat (c.toNat + 32) else c

/-- Model of Python `str.lower` on a string. -/
def lowerString (s : String) : String :=
  ⟨s.data.map lowerChar⟩

/-- File type resolved by `_load_documents` (line 108):
`self.config.get('file_type', 'pdf').lower()`. -/
def fileTypeResolved (cfg : ConfigJson) : String :=
  lowerString (cfg.file_type.getD "pdf")

/-- Model of `_load_documents` (lines 106-127).  Returns the chunk list or
the raised error, together with the loader-I/O trace: `loader.load()` runs
only in the `file_type == 'pdf'` branches. -/
def load_documents (fs : FileSystem) (cfg : ConfigJson) (fp : String) :
    Except LoadError (List Chunk) × List Event :=
  let ft := fileTypeResolved cfg
  if fs.isFile fp then
    if ft = "pdf" then (.ok (fs.chunksOf fp), [.loadDocs fp])
    else (.error .unsupportedType, [])
  else if fs.isDir fp then
    if ft = "pdf" then (.ok (fs.chunksOf fp), [.loadDocs fp])
    else (.error .unsupportedType, [])
  else (.error .notFound, [])

/-- Store-side insertion of a chunk batch: each chunk becomes an entry under
a fresh primary key, in order. -/
def attachPks (start : Nat) : List Chunk → List IndexEntry
  | [] => []
  | c :: cs => ⟨start, c.text, c.source, c.startIndex⟩ :: attachPks (start + 1) cs

/-- Model of `Milvus.from_documents` (lines 135-142, 255-262): creates the
collection if absent and appends the embedded chunks as fresh entries. -/
def milvusFromDocuments (db : DBState) (docs : List Chunk) : DBState :=
  { collectionExists := true
    entries := db.entries ++ attachPks db.nextPk docs
    nextPk := db.nextPk + docs.length }

/-- Model of `insert_documents` (lines 129-144): load and split the
documents, then `Milvus.from_documents`, binding `self.vector_db` and
reporting the chunk count.  On a load error the exception propagates and the
store is untouched. -/
def insert_documents (fs : FileSystem) (cfg : ConfigJson) (s : ManagerState)
    (fp : String) : ManagerState × Except LoadError Nat × List Event :=
  match load_documents fs cfg fp with
  | (.error e, tr) => (s, .error e, tr)
  | (.ok docs, tr) =>
    ({ s with db := milvusFromDocuments s.db docs, vectorDb := true },
      .ok docs.length, tr ++ [.insertDocs fp docs.length])

/-- Deletion loop of `delete_documents` (lines 162-165): for each queried
doc, one `delete` call with expression `pk in [doc.pk]`. -/
def deleteLoop (entries docs : List IndexEntry) : List IndexEntry :=
  docs.foldl (fun acc d => acc.filter (fun e => !(e.pk == d.pk))) entries

/-- Model of `delete_documents` (lines 146-167): bind `self.collection` if
unset, query for entries with `source == fp`; if none, report zero and
return; otherwise delete each matching entry by primary key and report the
count. -/
def delete_documents (s : ManagerState) (fp : String) :
    ManagerState × Nat × List Event :=
  let s1 := { s with collection := true }
  let res := filterSource s1.db.entries fp
  if res.isEmpty then (s1, 0, [.querySource fp])
  else
    ({ s1 with db := { s1.db with entries := deleteLoop s1.db.entries res } },
      res.length, .querySource fp :: res.map (fun d => .deletePk d.pk))

/-- Model of `_check_file_exists` (lines 180-190): bind `self.collection` if
unset, query for `source == fp`, return whether any entry matched. -/
def check_file_exists (s : ManagerState) (fp : String) :
    (ManagerState × Bool) × List Event :=
  (({ s with collection := true }, decide (0 < countSource s.db.entries fp)),
    [.querySource fp])

/-- Model of `update_documents` (lines 169-178): check existence via the
provenance lookup, delete the matching entries if any exist, then
unconditionally insert. -/
def update_documents (fs : FileSystem) (cfg : ConfigJson) (s : ManagerState)
    (fp : String) : ManagerState × Except LoadError Nat × List Event :=
  let ((s1, found), tr1) := check_file_exists s fp
  let (s2, tr2) :=
    if found then
      let (s', _, tr) := delete_documents s1 fp
      (s', tr)
    else (s1, ([] : List Event))
  let (s3, res, tr3) := insert_documents fs cfg s2 fp
  (s3, res, tr1 ++ tr2 ++ tr3)

/-- Model of `_drop_collection` (lines 235-245): if the collection exists,
drop it (all entries gone) and clear `self.collection` and `self.vector_db`;
otherwise only log that it does not exist. -/
def drop_collection (s : ManagerState) : ManagerState × List Event :=
  if s.db.collectionExists then
    ({ db := { collectionExists := false, entries := [], nextPk := s.db.nextPk }
       collection := false, vectorDb := false }, [.dropColl])
  else (s, [.dropNoop])

/-- Model of `load_collection` (lines 247-265): `_drop_collection`
unconditionally, then `_load_documents` and `Milvus.from_documents` into the
now-fresh collection, finally binding `self.collection`. -/
def load_collection (fs : FileSystem) (cfg : ConfigJson) (s : ManagerState)
    (fp : String) : ManagerState × Except LoadError Nat × List Event :=
  let (s1, tr1) := drop_collection s
  match load_documents fs cfg fp with
  | (.error e, tr) => (s1, .error e, tr1 ++ tr)
  | (.ok docs, tr) =>
    ({ db := milvusFromDocuments s1.db docs, collection := true, vectorDb := true },
      .ok docs.length, tr1 ++ tr ++ [.insertDocs fp docs.length])

/-- Search parameters of `_get_search_params` (lines 90-96). -/
structure SearchParams where
  metric : String
  offset : Nat
  limit : Nat
deriving DecidableEq, Repr

/-- Model of `_get_search_params` (lines 90-96). -/
def get_search_params : SearchParams :=
  { metric := "IP", offset := 0, limit := 10 }

/-- Raw similarity-search match: (text, source, score). -/
structure Match where
  text : String
  source : String
  score : Int
deriving DecidableEq, Repr

/-- Model of the vector store's `similarity_search` collaborator (line 214):
rank the collection's entries by the scoring oracle (descending) and return
the top `k` as (text, source, score).  The cutoff `k` comes from the search
parameters the manager configures (`get_search_params`). -/
def similarity_search (score : IndexEntry → Int) (entries : List IndexEntry)
    (k : Nat) : List Match :=
  ((entries.mergeSort (fun a b => score b ≤ score a)).take k).map
    (fun e => ⟨e.text, e.source, score e⟩)

/-- Model of `query_documents` with `use_rag=False` (lines 192-199, 212-215):
lazily bind `self.vector_db` if unset, then run a similarity search over the
collection with the manager's configured search parameters; `score q` is the
embedding-similarity oracle for query `q`. -/
def query_documents_similarity (score : String → IndexEntry → Int)
    (s : ManagerState) (q : String) : ManagerState × List Match :=
  let s1 := { s with vectorDb := true }
  (s1, similarity_search (score q) s1.db.entries get_search_params.limit)

/-- Conversation memory of the RAG mode (`ConversationBufferMemory`,
line 203): an ordered list of (question, answer) turns. -/
structure QuerySession where
  history : List (String × String)
deriving DecidableEq, Repr

/-- Modelled from the spec: the `ConversationalRetrievalChain` collaborator
invoked at lines 204-211 is library code not under src/.  Per the spec's
contract, one call retrieves context for the current query only, obtains the
answer from the generative model given the prior history, the question and
the retrieved context, and appends the (question, answer) pair to the
session history. -/
def conversationalQuery (llm : List (String × String) → String → List String → String)
    (retrieve : String → List String) (sess : QuerySession) (q : String) :
    QuerySession × String :=
  let ctx := retrieve q
  let ans := llm sess.history q ctx
  ({ history := sess.history ++ [(q, ans)] }, ans)

/-- Repeated conversational calls within one session. -/
def runSession (llm : List (String × String) → String → List String → String)
    (retrieve : String → List String) (sess : QuerySession) :
    List String → QuerySession
  | [] => sess
  | q :: qs => runSession llm retrieve (conversationalQuery llm retrieve sess q).1 qs

/-! Helper lemmas about the embedded operations. -/

/-- Successful document loading: on an existing path with the pdf loader,
`load_documents` yields the pipeline's chunks and one loader-I/O event. -/
theorem load_documents_ok (fs : FileSystem) (cfg : ConfigJson) (fp : String)
    (hex : fs.isFile fp = true ∨ fs.isDir fp = true)
    (hft : fileTypeResolved cfg = "pdf") :
    load_documents fs cfg fp = (.ok (fs.chunksOf fp), [.loadDocs fp]) := by
  rcases hex with h | h <;> simp [load_documents, h, hft]

/-- Counting a source distributes over appended entry lists. -/
theorem countSource_append (l1 l2 : List IndexEntry) (fp : String) :
    countSource (l1 ++ l2) fp = countSource l1 fp + countSource l2 fp := by
  simp [countSource, filterSource]

/-- Entries freshly keyed from a chunk batch keep the chunks' payloads. -/
theorem attachPks_payload (n : Nat) (docs : List Chunk) :
    (attachPks n docs).map (fun e => (e.text, e.source, e.startIndex))
      = docs.map (fun c => (c.text, c.source, c.startIndex)) := by
  induction docs generalizing n with
  | nil => rfl
  | cons c cs ih => simp [attachPks, ih]

/-- Keying a chunk batch preserves its length. -/
theorem attachPks_length (n : Nat) (docs : List Chunk) :
    (attachPks n docs).length = docs.length := by
  induction docs generalizing n with
  | nil => rfl
  | cons c cs ih => simp [attachPks, ih]

/-- When every chunk of the batch carries source `fp`, the freshly inserted
entries contribute exactly the batch size to the count for `fp`. -/
theorem countSource_attachPks (n : Nat) (docs : List Chunk) (fp : String)
    (hsrc : ∀ c ∈ docs, c.source = fp) :
    countSource (attachPks n docs) fp = docs.length := by
  induction docs generalizing n with
  | nil => rfl
  | cons c cs ih =>
    have hc : c.source = fp := hsrc c (List.mem_cons_self c cs)
    have hcs : ∀ c ∈ cs, c.source = fp := fun x hx => hsrc x (List.mem_cons_of_mem c hx)
    simp [countSource, filterSource, attachPks, hc] at ih ⊢
    exact ih (n + 1) hcs

/-- The deletion loop removes exactly the entries whose pk occurs among the
queried documents' pks. -/
theorem deleteLoop_eq (entries docs : List IndexEntry) :
    deleteLoop entries docs
      = entries.filter (fun e => !(docs.any (fun d => e.pk == d.pk))) := by
  induction docs generalizing entries with
  | nil => simp [deleteLoop]
  | cons d ds ih =>
    show deleteLoop (entries.filter fun e => !(e.pk == d.pk)) ds = _
    rw [ih, List.filter_filter]
    refine List.filter_congr fun e _ => ?_
    simp [Bool.not_or, Bool.and_comm]

/-- On a well-keyed store, deleting the queried documents for source `fp`
one pk at a time removes exactly the entries with that source. -/
theorem deleteLoop_filterSource (db : DBState) (fp : String)
    (hwf : (db.entries.map (fun e => e.pk)).Nodup) :
    deleteLoop db.entries (filterSource db.entries fp)
      = db.entries.filter (fun e => !(e.source == fp)) := by
  rw [deleteLoop_eq]
  refine List.filter_congr fun e he => ?_
  by_cases hs : e.source = fp
  · have hmem : e ∈ filterSource db.entries fp := by
      simp [filterSource, List.mem_filter, he, hs]
    have : (filterSource db.entries fp).any (fun d => e.pk == d.pk) = true := by
      simp only [List.any_eq_true]
      exact ⟨e, hmem, by simp⟩
    simp [this, hs]
  · have : (filterSource db.entries fp).any (fun d => e.pk == d.pk) = false := by
      simp only [List.any_eq_false]
      intro d hd
      have hd' : d ∈ db.entries ∧ d.source = fp := by
        simpa [filterSource, List.mem_filter] using hd
      intro hpk
      have hed : e = d := List.inj_on_of_nodup_map hwf he hd'.1 (by simpa using hpk)
      exact hs (hed ▸ hd'.2)
    simp [this, hs]

/-- After filtering a source out, the count for that source is zero. -/
theorem countSource_filter_not (entries : List IndexEntry) (fp : String) :
    countSource (entries.filter (fun e => !(e.source == fp))) fp = 0 := by
  simp [countSource, filterSource, List.filter_filter]

/-- When no entry carries source `fp`, filtering that source out keeps the
whole entry list. -/
theorem filter_not_source_of_count_zero (entries : List IndexEntry) (fp : String)
    (h : countSource entries fp = 0) :
    entries.filter (fun e => !(e.source == fp)) = entries := by
  refine List.filter_eq_self.mpr fun e he => ?_
  by_contra hne
  have hs : e.source = fp := by
    by_contra hs
    exact hne (by simp [hs])
  have : e ∈ filterSource entries fp := by simp [filterSource, List.mem_filter, he, hs]
  have : 0 < countSource entries fp := by
    have := List.length_pos_of_mem this
    simpa [countSource] using this
  omega

/-- Successful insertion: on an existing pdf path, `insert_documents` appends
the freshly keyed chunks, binds `self.vector_db` and reports the chunk count. -/
theorem insert_documents_ok (fs : FileSystem) (cfg : ConfigJson) (s : ManagerState)
    (fp : String) (hex : fs.isFile fp = true ∨ fs.isDir fp = true)
    (hft : fileTypeResolved cfg = "pdf") :
    insert_documents fs cfg s fp
      = ({ s with db := milvusFromDocuments s.db (fs.chunksOf fp), vectorDb := true },
         .ok (fs.chunksOf fp).length,
         [.loadDocs fp, .insertDocs fp (fs.chunksOf fp).length]) := by
  simp [insert_documents, load_documents_ok fs cfg fp hex hft]

/-- Characterisation of `update_documents` on a well-keyed store and a
loadable path: the result state keeps exactly the entries of other sources
plus the freshly keyed chunks, and the trace is the provenance check,
followed by the delete calls exactly when the check found entries, followed
unconditionally by the insert. -/
theorem update_documents_eq (fs : FileSystem) (cfg : ConfigJson) (s : ManagerState)
    (fp : String) (hnd : (s.db.entries.map (fun e => e.pk)).Nodup)
    (hex : fs.isFile fp = true ∨ fs.isDir fp = true)
    (hft : fileTypeResolved cfg = "pdf") :
    update_documents fs cfg s fp
      = ({ db := { collectionExists := true,
                   entries := s.db.entries.filter (fun e => !(e.source == fp))
                     ++ attachPks s.db.nextPk (fs.chunksOf fp),
                   nextPk := s.db.nextPk + (fs.chunksOf fp).length },
           collection := true, vectorDb := true },
         .ok (fs.chunksOf fp).length,
         .querySource fp ::
           ((if 0 < countSource s.db.entries fp then
               .querySource fp
                 :: (filterSource s.db.entries fp).map (fun d => Event.deletePk d.pk)
             else [])
            ++ [.loadDocs fp, .insertDocs fp (fs.chunksOf fp).length])) := by
  have hld := load_documents_ok fs cfg fp hex hft
  by_cases hc : 0 < countSource s.db.entries fp
  · have hres : (filterSource s.db.entries fp).isEmpty = false := by
      rcases hfe : filterSource s.db.entries fp with _ | ⟨a, l⟩
      · rw [countSource, hfe] at hc; simp at hc
      · rfl
    simp only [update_documents, check_file_exists, delete_documents, insert_documents,
      hld, milvusFromDocuments, deleteLoop_filterSource s.db fp hnd]
    simp [hc, hres]
  · have hc0 : countSource s.db.entries fp = 0 := by omega
    have hres : (filterSource s.db.entries fp).isEmpty = true := by
      rcases hfe : filterSource s.db.entries fp with _ | ⟨a, l⟩
      · rfl
      · rw [countSource, hfe] at hc0; simp at hc0
    simp only [update_documents, check_file_exists, delete_documents, insert_documents,
      hld, milvusFromDocuments, hc0]
    rw [filter_not_source_of_count_zero s.db.entries fp hc0]
    simp

/-! Concrete fixtures used by the witness theorems. -/

/-- Example file system: one pdf file `a.pdf` splitting into three chunks. -/
def fsEx : FileSystem :=
  { isFile := fun p => p == "a.pdf"
    isDir := fun _ => false
    chunksOf := fun p =>
      if p == "a.pdf" then
        [⟨"alpha", "a.pdf", 0⟩, ⟨"beta", "a.pdf", 480⟩, ⟨"gamma", "a.pdf", 960⟩]
      else [] }

/-- Example parsed configuration with all optional keys absent. -/
def cfgEx : ConfigJson :=
  { docker_host := some "localhost", docker_port := some 19530
    collection_name := some "docs", embedding_model := none
    chunk_size := none, chunk_overlap := none, file_type := none }

/-- Example store: two stale entries for `a.pdf` and one for `b.pdf`. -/
def sEx : ManagerState :=
  { db := { collectionExists := true
            entries := [⟨0, "old1", "a.pdf", 0⟩, ⟨1, "keep", "b.pdf", 0⟩,
              ⟨2, "old2", "a.pdf", 480⟩]
            nextPk := 3 }
    collection := false, vectorDb := false }

/-- Example file system on which no path resolves (file deleted on disk). -/
def missingFs : FileSystem :=
  { isFile := fun _ => false, isDir := fun _ => false, chunksOf := fun _ => [] }

/-- Example file system holding a text file. -/
def txtFs : FileSystem :=
  { isFile := fun p => p == "notes.txt"
    isDir := fun _ => false
    chunksOf := fun _ => [] }

/-- Example parsed configuration whose `file_type` is "TXT". -/
def cfgTxt : ConfigJson :=
  { docker_host := some "localhost", docker_port := some 19530
    collection_name := some "docs", embedding_model := none
    chunk_size := none, chunk_overlap := none, file_type := some "TXT" }

/-- Example store with an existing, still-empty collection. -/
def sEx0 : ManagerState :=
  { db := { collectionExists := true, entries := [], nextPk := 0 }
    collection := false, vectorDb := false }

/-! Claim theorems. -/

/-- C1: `update_documents(fp)` performs exactly check, then deletion of all
entries with `source == fp` when at least one exists, then unconditionally a
fresh insert — the insert runs whether or not the delete ran — and after an
update of a pre-existing file the entry count for that source equals the
chunk count of the latest load, never the sum with the prior load. -/
theorem update_check_delete_insert (fs : FileSystem) (cfg : ConfigJson)
    (s : ManagerState) (fp : String) (hwf : WF s.db)
    (hex : fs.isFile fp = true ∨ fs.isDir fp = true)
    (hft : fileTypeResolved cfg = "pdf")
    (hsrc : ∀ c ∈ fs.chunksOf fp, c.source = fp) :
    (update_documents fs cfg s fp).2.1 = .ok (fs.chunksOf fp).length ∧
    countSource (update_documents fs cfg s fp).1.db.entries fp
      = (fs.chunksOf fp).length ∧
    (update_documents fs cfg s fp).2.2
      = .querySource fp ::
          ((if 0 < countSource s.db.entries fp then
              .querySource fp
                :: (filterSource s.db.entries fp).map (fun d => Event.deletePk d.pk)
            else [])
           ++ [.loadDocs fp, .insertDocs fp (fs.chunksOf fp).length]) := by
  rw [update_documents_eq fs cfg s fp hwf.1 hex hft]
  refine ⟨rfl, ?_, rfl⟩
  rw [countSource_append, countSource_filter_not,
    countSource_attachPks _ _ _ hsrc, Nat.zero_add]

/-- Witness for C1 at the concrete fixtures: `a.pdf` pre-exists with two
stale entries and re-chunks into three. -/
theorem update_check_delete_insert_witness :
    (update_documents fsEx cfgEx sEx "a.pdf").2.1 = .ok (fsEx.chunksOf "a.pdf").length ∧
    countSource (update_documents fsEx cfgEx sEx "a.pdf").1.db.entries "a.pdf"
      = (fsEx.chunksOf "a.pdf").length ∧
    (update_documents fsEx cfgEx sEx "a.pdf").2.2
      = .querySource "a.pdf" ::
          ((if 0 < countSource sEx.db.entries "a.pdf" then
              .querySource "a.pdf"
                :: (filterSource sEx.db.entries "a.pdf").map (fun d => Event.deletePk d.pk)
            else [])
           ++ [.loadDocs "a.pdf", .insertDocs "a.pdf" (fsEx.chunksOf "a.pdf").length]) :=
  update_check_delete_insert fsEx cfgEx sEx "a.pdf"
    (by decide) (by decide) (by decide) (by decide)

/-- C2: inserting the same file twice with no intervening delete does not
deduplicate — the entry count for that source after the second insert is
double the count after the first. -/
theorem insert_twice_doubles (fs : FileSystem) (cfg : ConfigJson)
    (s : ManagerState) (fp : String)
    (h0 : countSource s.db.entries fp = 0)
    (hex : fs.isFile fp = true ∨ fs.isDir fp = true)
    (hft : fileTypeResolved cfg = "pdf")
    (hsrc : ∀ c ∈ fs.chunksOf fp, c.source = fp) :
    countSource (insert_documents fs cfg s fp).1.db.entries fp
      = (fs.chunksOf fp).length ∧
    countSource (insert_documents fs cfg (insert_documents fs cfg s fp).1 fp).1.db.entries fp
      = 2 * countSource (insert_documents fs cfg s fp).1.db.entries fp := by
  rw [insert_documents_ok fs cfg s fp hex hft]
  rw [insert_documents_ok fs cfg _ fp hex hft]
  simp only [milvusFromDocuments]
  rw [countSource_append, countSource_append, countSource_append,
    countSource_attachPks _ _ _ hsrc, countSource_attachPks _ _ _ hsrc, h0]
  omega

/-- Witness for C2: two inserts of `a.pdf` starting from a store holding no
entry for it. -/
theorem insert_twice_doubles_witness :
    countSource (insert_documents fsEx cfgEx sEx0 "a.pdf").1.db.entries "a.pdf"
      = (fsEx.chunksOf "a.pdf").length ∧
    countSource
        (insert_documents fsEx cfgEx (insert_documents fsEx cfgEx sEx0 "a.pdf").1 "a.pdf").1.db.entries
        "a.pdf"
      = 2 * countSource (insert_documents fsEx cfgEx sEx0 "a.pdf").1.db.entries "a.pdf" :=
  insert_twice_doubles fsEx cfgEx sEx0 "a.pdf"
    (by decide) (by decide) (by decide) (by decide)

/-- C3: `_drop_collection` is idempotent — a second call in succession is a
no-op; on an absent collection the call only logs and changes nothing, and
on an existing collection it deletes the collection and clears the
in-memory references `self.collection` and `self.vector_db`. -/
theorem drop_collection_idempotent (s : ManagerState) :
    (drop_collection (drop_collection s).1).1 = (drop_collection s).1 ∧
    (drop_collection (drop_collection s).1).2 = [.dropNoop] ∧
    (s.db.collectionExists = false → drop_collection s = (s, [.dropNoop])) ∧
    (s.db.collectionExists = true →
      (drop_collection s).1.db.collectionExists = false ∧
      (drop_collection s).1.db.entries = [] ∧
      (drop_collection s).1.collection = false ∧
      (drop_collection s).1.vectorDb = false) := by
  by_cases h : s.db.collectionExists <;> simp [drop_collection, h]

/-- Witness for C3 at the concrete fixture (collection present). -/
theorem drop_collection_idempotent_witness :
    (drop_collection (drop_collection sEx).1).1 = (drop_collection sEx).1 ∧
    (drop_collection (drop_collection sEx).1).2 = [.dropNoop] ∧
    (sEx.db.collectionExists = false → drop_collection sEx = (sEx, [.dropNoop])) ∧
    (sEx.db.collectionExists = true →
      (drop_collection sEx).1.db.collectionExists = false ∧
      (drop_collection sEx).1.db.entries = [] ∧
      (drop_collection sEx).1.collection = false ∧
      (drop_collection sEx).1.vectorDb = false) :=
  drop_collection_idempotent sEx

/-- C4: `load_collection(fp)` performs `_drop_collection` unconditionally
and only then inserts `fp`; the drop's events precede the load and insert in
the trace, and the resulting collection exists, is bound in memory, and
contains exactly the chunks of `fp`. -/
theorem load_collection_fresh (fs : FileSystem) (cfg : ConfigJson)
    (s : ManagerState) (fp : String) (hwf : WF s.db)
    (hex : fs.isFile fp = true ∨ fs.isDir fp = true)
    (hft : fileTypeResolved cfg = "pdf") :
    (load_collection fs cfg s fp).2.1 = .ok (fs.chunksOf fp).length ∧
    (load_collection fs cfg s fp).1.db.entries.map
        (fun e => (e.text, e.source, e.startIndex))
      = (fs.chunksOf fp).map (fun c => (c.text, c.source, c.startIndex)) ∧
    (load_collection fs cfg s fp).1.db.collectionExists = true ∧
    (load_collection fs cfg s fp).1.collection = true ∧
    (load_collection fs cfg s fp).1.vectorDb = true ∧
    (load_collection fs cfg s fp).2.2
      = (drop_collection s).2 ++ [.loadDocs fp, .insertDocs fp (fs.chunksOf fp).length] := by
  have hld := load_documents_ok fs cfg fp hex hft
  by_cases h : s.db.collectionExists
  · simp [load_collection, drop_collection, h, hld, milvusFromDocuments, attachPks_payload]
  · have hemp : s.db.entries = [] := hwf.2 (by simpa using h)
    simp [load_collection, drop_collection, h, hld, milvusFromDocuments, hemp,
      attachPks_payload]

/-- Witness for C4 at the concrete fixtures: reloading `a.pdf` over a store
holding stale entries. -/
theorem load_collection_fresh_witness :
    (load_collection fsEx cfgEx sEx "a.pdf").2.1 = .ok (fsEx.chunksOf "a.pdf").length ∧
    (load_collection fsEx cfgEx sEx "a.pdf").1.db.entries.map
        (fun e => (e.text, e.source, e.startIndex))
      = (fsEx.chunksOf "a.pdf").map (fun c => (c.text, c.source, c.startIndex)) ∧
    (load_collection fsEx cfgEx sEx "a.pdf").1.db.collectionExists = true ∧
    (load_collection fsEx cfgEx sEx "a.pdf").1.collection = true ∧
    (load_collection fsEx cfgEx sEx "a.pdf").1.vectorDb = true ∧
    (load_collection fsEx cfgEx sEx "a.pdf").2.2
      = (drop_collection sEx).2
          ++ [.loadDocs "a.pdf", .insertDocs "a.pdf" (fsEx.chunksOf "a.pdf").length] :=
  load_collection_fresh fsEx cfgEx sEx "a.pdf" (by decide) (by decide) (by decide)

/-- C5: `delete_documents(fp)` reports exactly the number of entries whose
source equals `fp` — zero, without error and with the store untouched, when
none match — and otherwise issues one pk-deletion call per matching entry,
removing exactly those entries. -/
theorem delete_documents_absent_or_present (s : ManagerState) (fp : String)
    (hwf : WF s.db) :
    (delete_documents s fp).2.1 = countSource s.db.entries fp ∧
    (delete_documents s fp).1.db.entries
      = s.db.entries.filter (fun e => !(e.source == fp)) ∧
    (countSource s.db.entries fp = 0 → (delete_documents s fp).1.db = s.db) ∧
    (delete_documents s fp).2.2
      = .querySource fp
          :: (filterSource s.db.entries fp).map (fun d => Event.deletePk d.pk) := by
  by_cases hc : (filterSource s.db.entries fp).isEmpty
  · have hnil : filterSource s.db.entries fp = [] := by
      simpa [List.isEmpty_iff] using hc
    have h0 : countSource s.db.entries fp = 0 := by simp [countSource, hnil]
    simp [delete_documents, hc, hnil, h0,
      filter_not_source_of_count_zero s.db.entries fp h0]
  · have h0 : countSource s.db.entries fp ≠ 0 := by
      intro h
      have : filterSource s.db.entries fp = [] := by
        simpa [countSource] using h
      simp [this] at hc
    simp [delete_documents, hc, countSource,
      deleteLoop_filterSource s.db fp hwf.1, h0]
    intro hnil
    exact absurd hnil (by simpa [List.isEmpty_iff] using hc)

/-- Witness for C5 at the concrete fixture, deleting a source with no
matching entries. -/
theorem delete_documents_absent_witness :
    (delete_documents sEx "nonexistent.pdf").2.1
      = countSource sEx.db.entries "nonexistent.pdf" ∧
    (delete_documents sEx "nonexistent.pdf").1.db.entries
      = sEx.db.entries.filter (fun e => !(e.source == "nonexistent.pdf")) ∧
    (countSource sEx.db.entries "nonexistent.pdf" = 0 →
      (delete_documents sEx "nonexistent.pdf").1.db = sEx.db) ∧
    (delete_documents sEx "nonexistent.pdf").2.2
      = .querySource "nonexistent.pdf"
          :: (filterSource sEx.db.entries "nonexistent.pdf").map
              (fun d => Event.deletePk d.pk) :=
  delete_documents_absent_or_present sEx "nonexistent.pdf" (by decide)

/-- C10: `update_documents` is not atomic on error — when the source is
indexed but the path no longer resolves on disk, the delete step removes all
matching entries and the insert step then raises `FileNotFoundError`,
leaving zero entries for that source, with nothing restored. -/
theorem update_not_atomic_on_error (fs : FileSystem) (cfg : ConfigJson)
    (s : ManagerState) (fp : String) (hwf : WF s.db)
    (hpre : 0 < countSource s.db.entries fp)
    (hfile : fs.isFile fp = false) (hdir : fs.isDir fp = false) :
    (update_documents fs cfg s fp).2.1 = .error .notFound ∧
    countSource (update_documents fs cfg s fp).1.db.entries fp = 0 ∧
    (update_documents fs cfg s fp).1.db.entries
      = s.db.entries.filter (fun e => !(e.source == fp)) := by
  have hld : load_documents fs cfg fp = (.error .notFound, []) := by
    simp [load_documents, hfile, hdir]
  have hres : (filterSource s.db.entries fp).isEmpty = false := by
    rcases hfe : filterSource s.db.entries fp with _ | ⟨a, l⟩
    · rw [countSource, hfe] at hpre; simp at hpre
    · rfl
  simp only [update_documents, check_file_exists, delete_documents, insert_documents, hld]
  simp [hpre, hres, deleteLoop_filterSource s.db fp hwf.1, countSource_filter_not]

/-- Witness for C10: `a.pdf` has two indexed entries but `missingFs` no
longer resolves it on disk. -/
theorem update_not_atomic_on_error_witness :
    (update_documents missingFs cfgEx sEx "a.pdf").2.1 = .error .notFound ∧
    countSource (update_documents missingFs cfgEx sEx "a.pdf").1.db.entries "a.pdf" = 0 ∧
    (update_documents missingFs cfgEx sEx "a.pdf").1.db.entries
      = sEx.db.entries.filter (fun e => !(e.source == "a.pdf")) :=
  update_not_atomic_on_error missingFs cfgEx sEx "a.pdf"
    (by decide) (by decide) (by decide) (by decide)

/-- Example scoring oracle for witness instantiation. -/
def scoreEx : String → IndexEntry → Int :=
  fun _ e => Int.ofNat e.pk

/-- C6: the similarity-search path returns the top-K raw matches with K
defaulting to 10 (the limit of `_get_search_params`), each match carrying an
entry's (text, source, score); against an empty collection it returns the
empty sequence rather than an error. -/
theorem query_similarity_topk (score : String → IndexEntry → Int)
    (s : ManagerState) (q : String) :
    get_search_params.limit = 10 ∧
    (query_documents_similarity score s q).2.length ≤ get_search_params.limit ∧
    (∀ m ∈ (query_documents_similarity score s q).2,
      ∃ e ∈ s.db.entries, m = ⟨e.text, e.source, score q e⟩) ∧
    (s.db.entries = [] → (query_documents_similarity score s q).2 = []) := by
  refine ⟨rfl, ?_, ?_, ?_⟩
  · simp [query_documents_similarity, similarity_search, get_search_params]
  · intro m hm
    simp only [query_documents_similarity, similarity_search, List.mem_map] at hm
    obtain ⟨e, he, rfl⟩ := hm
    exact ⟨e, List.mem_mergeSort.mp (List.take_subset _ _ he), rfl⟩
  · intro h
    simp [query_documents_similarity, similarity_search, h]

/-- Witness for C6 at the concrete fixtures. -/
theorem query_similarity_topk_witness :
    get_search_params.limit = 10 ∧
    (query_documents_similarity scoreEx sEx "what is alpha").2.length
      ≤ get_search_params.limit ∧
    (∀ m ∈ (query_documents_similarity scoreEx sEx "what is alpha").2,
      ∃ e ∈ sEx.db.entries, m = ⟨e.text, e.source, scoreEx "what is alpha" e⟩) ∧
    (sEx.db.entries = [] →
      (query_documents_similarity scoreEx sEx "what is alpha").2 = []) :=
  query_similarity_topk scoreEx sEx "what is alpha"

/-- C7: document loading fails with `FileNotFoundError` when the path is
neither a file nor a directory, fails with the unsupported-type `ValueError`
when the resolved file type is not pdf — with no loader I/O performed in
that case (empty trace) — and otherwise the insert reports the chunk count. -/
theorem load_documents_error_taxonomy (fs : FileSystem) (cfg : ConfigJson)
    (fp : String) :
    (fs.isFile fp = false → fs.isDir fp = false →
      load_documents fs cfg fp = (.error .notFound, []) ∧
      ∀ s, insert_documents fs cfg s fp = (s, .error .notFound, [])) ∧
    ((fs.isFile fp = true ∨ fs.isDir fp = true) → fileTypeResolved cfg ≠ "pdf" →
      load_documents fs cfg fp = (.error .unsupportedType, []) ∧
      ∀ s, insert_documents fs cfg s fp = (s, .error .unsupportedType, [])) ∧
    ((fs.isFile fp = true ∨ fs.isDir fp = true) → fileTypeResolved cfg = "pdf" →
      ∀ s, (insert_documents fs cfg s fp).2.1 = .ok (fs.chunksOf fp).length) := by
  refine ⟨?_, ?_, ?_⟩
  · intro h1 h2
    have hld : load_documents fs cfg fp = (.error .notFound, []) := by
      simp [load_documents, h1, h2]
    exact ⟨hld, fun s => by simp [insert_documents, hld]⟩
  · intro hex hft
    have hld : load_documents fs cfg fp = (.error .unsupportedType, []) := by
      rcases hex with h | h <;> by_cases hf : fs.isFile fp <;>
        simp [load_documents, h, hf, hft]
    exact ⟨hld, fun s => by simp [insert_documents, hld]⟩
  · intro hex hft s
    rw [insert_documents_ok fs cfg s fp hex hft]

/-- Witness for C7: a config whose file type resolves to "txt" over the
example file system. -/
theorem load_documents_error_taxonomy_witness :
    (txtFs.isFile "notes.txt" = false → txtFs.isDir "notes.txt" = false →
      load_documents txtFs cfgTxt "notes.txt" = (.error .notFound, []) ∧
      ∀ s, insert_documents txtFs cfgTxt s "notes.txt"
        = (s, .error .notFound, [])) ∧
    ((txtFs.isFile "notes.txt" = true ∨ txtFs.isDir "notes.txt" = true) →
      fileTypeResolved cfgTxt ≠ "pdf" →
      load_documents txtFs cfgTxt "notes.txt" = (.error .unsupportedType, []) ∧
      ∀ s, insert_documents txtFs cfgTxt s "notes.txt"
        = (s, .error .unsupportedType, [])) ∧
    ((txtFs.isFile "notes.txt" = true ∨ txtFs.isDir "notes.txt" = true) →
      fileTypeResolved cfgTxt = "pdf" →
      ∀ s, (insert_documents txtFs cfgTxt s "notes.txt").2.1
        = .ok (txtFs.chunksOf "notes.txt").length) :=
  load_documents_error_taxonomy txtFs cfgTxt "notes.txt"

/-- History built by a run of conversational calls extends the starting
history by exactly one turn per question. -/
theorem runSession_history
    (llm : List (String × String) → String → List String → String)
    (retrieve : String → List String) (qs : List String) (sess : QuerySession) :
    ∃ t : List (String × String),
      (runSession llm retrieve sess qs).history = sess.history ++ t ∧
      t.length = qs.length := by
  induction qs generalizing sess with
  | nil => exact ⟨[], by simp [runSession]⟩
  | cons q rest ih =>
    obtain ⟨t, ht, hl⟩ := ih (conversationalQuery llm retrieve sess q).1
    refine ⟨(q, llm sess.history q (retrieve q)) :: t, ?_, by simp [hl]⟩
    rw [show runSession llm retrieve sess (q :: rest)
        = runSession llm retrieve (conversationalQuery llm retrieve sess q).1 rest from rfl,
      ht]
    simp [conversationalQuery]

/-- C8: the conversational mode keeps a session-scoped, append-only history:
one call appends exactly its (question, answer) pair after handing the prior
history to the generative model, and over a whole session the earlier
history is preserved as a prefix while one turn is added per call. -/
theorem conversational_history_append
    (llm : List (String × String) → String → List String → String)
    (retrieve : String → List String) (sess : QuerySession) (q : String)
    (qs : List String) :
    conversationalQuery llm retrieve sess q
      = ({ history := sess.history ++ [(q, llm sess.history q (retrieve q))] },
         llm sess.history q (retrieve q)) ∧
    (runSession llm retrieve sess qs).history.take sess.history.length
      = sess.history ∧
    (runSession llm retrieve sess qs).history.length
      = sess.history.length + qs.length := by
  refine ⟨rfl, ?_, ?_⟩
  · obtain ⟨t, ht, _⟩ := runSession_history llm retrieve qs sess
    rw [ht, List.take_left]
  · obtain ⟨t, ht, hl⟩ := runSession_history llm retrieve qs sess
    rw [ht]
    simp [hl]

/-- Parsed configuration missing the required `collection_name` but holding
a valid host and port. -/
def cfgNoName : ConfigJson :=
  { docker_host := some "localhost", docker_port := some 19530
    collection_name := none, embedding_model := none
    chunk_size := none, chunk_overlap := none, file_type := none }

/-- C9 counterexample: constructing the manager succeeds on a configuration
that lacks the required `collection_name` — configuration loading does not
fail fast on it; the missing key only raises at the first operation that
indexes `config['collection_name']`. -/
theorem managerInit_missing_collection_name_ok :
    managerInit (some (some cfgNoName))
      = .ok (cfgNoName,
          { embeddingModel := "all-mpnet-base-v2", chunkSize := 500,
            chunkOverlap := 20, host := "localhost", port := 19530 }) := by
  rfl

/-- C9 amended: initialisation fails fast on a missing or malformed config
file and on a missing database host or port, while a missing collection
name is not checked at load time; absent optional keys take their defaults —
embedding model "all-mpnet-base-v2", chunk size 500, chunk overlap 20, file
type "pdf". -/
theorem config_loading_amended :
    load_config none = .error .fileNotFound ∧
    load_config (some none) = .error .invalidJson ∧
    (∀ j : ConfigJson, j.docker_host = none →
      managerInit (some (some j)) = .error (.missingKey "docker_host")) ∧
    (∀ j : ConfigJson, ∀ h : String,
      j.docker_host = some h → j.docker_port = none →
      managerInit (some (some j)) = .error (.missingKey "docker_port")) ∧
    (∀ j : ConfigJson, ∀ h : String, ∀ p : Nat,
      j.docker_host = some h → j.docker_port = some p →
      managerInit (some (some j))
        = .ok (j,
            { embeddingModel := j.embedding_model.getD "all-mpnet-base-v2",
              chunkSize := j.chunk_size.getD 500,
              chunkOverlap := j.chunk_overlap.getD 20,
              host := h, port := p })) ∧
    (∀ j : ConfigJson, j.file_type = none → fileTypeResolved j = "pdf") := by
  refine ⟨rfl, rfl, ?_, ?_, ?_, ?_⟩
  · intro j hj
    simp [managerInit, load_config, setup_components, hj]
  · intro j h hj hp
    simp [managerInit, load_config, setup_components, hj, hp]
  · intro j h p hj hp
    simp [managerInit, load_config, setup_components, hj, hp]
  · intro j hj
    simp only [fileTypeResolved, hj, Option.getD]
    decide

end MilvusRag
